import Mathlib

/-!
Verification of the assimp import dispatcher and animation evaluator.

Shallow embedding of the `Importer` dispatcher (`Importer.cpp` /
`BaseImporter.h`) and of the viewer's `AnimEvaluator` (`assimp_view`),
with proofs about the behaviour the specification describes.

C `double` values are modelled as exact rationals (`ℚ`); machine
integers as `Nat`.  Heap pointers appear only in the `SetIOHandler`
ownership model, where they are modelled as numeric identities.
-/

namespace AssimpProof

/-! ## Animation evaluator (`AnimEvaluator::Evaluate`) -/

/-- One position/scaling key of a node channel: `(mTime, mValue)` with the
value a 3-vector. -/
structure AiVectorKey where
  mTime : ℚ
  mValue : ℚ × ℚ × ℚ
  deriving Repr, DecidableEq

/-- One rotation key of a node channel: `(mTime, mValue)` with the value a
quaternion `(w, x, y, z)`. -/
structure AiQuatKey where
  mTime : ℚ
  mValue : ℚ × ℚ × ℚ × ℚ
  deriving Repr, DecidableEq

/-- A per-node animation track (`aiNodeAnim`): the three ordered key
arrays. -/
structure AiNodeAnim where
  mPositionKeys : List AiVectorKey
  mRotationKeys : List AiQuatKey
  mScalingKeys : List AiVectorKey
  deriving Repr, DecidableEq

/-- An animation (`aiAnimation`): duration and ticks-per-second (both
`double` in C, modelled as `ℚ`) plus the node channels. -/
structure AiAnimation where
  mDuration : ℚ
  mTicksPerSecond : ℚ
  mChannels : List AiNodeAnim
  deriving Repr, DecidableEq

/-- C `fmod` on exact rationals: `x - y * trunc (x / y)` (truncation
toward zero). -/
def fmodQ (x y : ℚ) : ℚ :=
  if 0 ≤ x / y then x - y * ⌊x / y⌋ else x - y * ⌈x / y⌉

/-- First statement of `AnimEvaluator::Evaluate`: the effective tick rate —
`mAnim->mTicksPerSecond != 0.0 ? mAnim->mTicksPerSecond : 25.0`. -/
def evalTicksPerSecond (anim : AiAnimation) : ℚ :=
  if anim.mTicksPerSecond ≠ 0 then anim.mTicksPerSecond else 25

/-- In `AnimEvaluator::Evaluate`, the input time converted to ticks:
`pTime *= ticksPerSecond`. -/
def evalTickTime (anim : AiAnimation) (pTime : ℚ) : ℚ :=
  pTime * evalTicksPerSecond anim

/-- In `AnimEvaluator::Evaluate`, the tick time mapped into the animation's
duration (`time = fmod(pTime, mDuration)` when the duration is positive,
else `0`). -/
def evalMappedTime (anim : AiAnimation) (pTime : ℚ) : ℚ :=
  if anim.mDuration > 0 then fmodQ (evalTickTime anim pTime) anim.mDuration else 0

/-- The key-search loop of `AnimEvaluator::Evaluate`, iteration-counted:
starting at `frame`, with `rem` iterations left of

`while (frame < n - 1) { if (time < keys[frame+1].mTime) break; frame++; }`

over the key-time list `times`.  `keySearch` below supplies
`rem = times.length - 1 - frame`, which makes the two guards agree. -/
def keySearchAux (times : List ℚ) (time : ℚ) : Nat → Nat → Nat
  | frame, 0 => frame
  | frame, rem + 1 =>
    if time < times.getD (frame + 1) 0 then frame
    else keySearchAux times time (frame + 1) rem

/-- The key-search loop of `AnimEvaluator::Evaluate`: finds the present
frame for `time`, scanning forward from `frame`. -/
def keySearch (times : List ℚ) (time : ℚ) (frame : Nat) : Nat :=
  keySearchAux times time frame (times.length - 1 - frame)

/-- The starting frame of the search:
`frame = (time >= mLastTime) ? cached : 0`. -/
def searchStart (time lastTime : ℚ) (cached : Nat) : Nat :=
  if lastTime ≤ time then cached else 0

/-- One track's frame selection in `AnimEvaluator::Evaluate`: the cached
frame is used as the start of the search when the mapped time is at or
after `mLastTime`, else the search restarts at frame 0. -/
def evalTrackFrame (times : List ℚ) (time lastTime : ℚ) (cached : Nat) : Nat :=
  keySearch times time (searchStart time lastTime cached)

theorem keySearchAux_le (times : List ℚ) (time : ℚ) :
    ∀ rem frame, keySearchAux times time frame rem ≤ frame + rem := by
  intro rem
  induction rem with
  | zero => intro frame; simp [keySearchAux]
  | succ rem ih =>
    intro frame
    simp only [keySearchAux]
    split
    · omega
    · have := ih (frame + 1)
      omega

theorem keySearchAux_scanned (times : List ℚ) (time : ℚ) :
    ∀ rem frame j, frame ≤ j → j < keySearchAux times time frame rem →
      ¬ time < times.getD (j + 1) 0 := by
  intro rem
  induction rem with
  | zero =>
    intro frame j hfj hlt
    simp [keySearchAux] at hlt
    omega
  | succ rem ih =>
    intro frame j hfj hlt
    simp only [keySearchAux] at hlt
    by_cases hcnd : time < times.getD (frame + 1) 0
    · rw [if_pos hcnd] at hlt; omega
    · rw [if_neg hcnd] at hlt
      rcases Nat.eq_or_lt_of_le hfj with h | h
      · subst h; exact hcnd
      · exact ih (frame + 1) j h hlt

theorem keySearchAux_skip (times : List ℚ) (time : ℚ) :
    ∀ d rem frame,
      (∀ j, frame ≤ j → j < frame + d → ¬ time < times.getD (j + 1) 0) →
      d ≤ rem →
      keySearchAux times time frame rem = keySearchAux times time (frame + d) (rem - d) := by
  intro d
  induction d with
  | zero => intro rem frame _ _; simp
  | succ d ih =>
    intro rem frame hscan hdr
    match rem, hdr with
    | rem + 1, _ =>
      have hfirst : ¬ time < times.getD (frame + 1) 0 := by
        exact hscan frame (Nat.le_refl _) (by omega)
      have hunfold : keySearchAux times time frame (rem + 1)
          = keySearchAux times time (frame + 1) rem := by
        simp only [keySearchAux]
        rw [if_neg hfirst]
      rw [hunfold]
      rw [ih rem (frame + 1)
        (by intro j h1 h2; exact hscan j (by omega) (by omega))
        (by omega)]
      have h1 : frame + (d + 1) = frame + 1 + d := by omega
      have h2 : rem + 1 - (d + 1) = rem - d := by omega
      rw [h1, h2]

/-- The cached search agrees with the search from frame 0: if the cache
holds the search result for an earlier time `t0 ≤ t`, resuming from it
selects the same key index as a full search. -/
theorem keySearch_cached_eq (times : List ℚ) (t0 t : ℚ) (c : Nat)
    (hc : c = keySearch times t0 0) (ht : t0 ≤ t) :
    keySearch times t c = keySearch times t 0 := by
  have hcle : c ≤ times.length - 1 := by
    have := keySearchAux_le times t0 (times.length - 1 - 0) 0
    simp only [keySearch] at hc
    omega
  have hscan : ∀ j, 0 ≤ j → j < 0 + c → ¬ t < times.getD (j + 1) 0 := by
    intro j _ hj
    have h0 : ¬ t0 < times.getD (j + 1) 0 := by
      apply keySearchAux_scanned times t0 (times.length - 1 - 0) 0 j (Nat.zero_le _)
      rw [← keySearch, ← hc]; omega
    intro hcon
    exact h0 (lt_of_le_of_lt ht hcon)
  have := keySearchAux_skip times t c (times.length - 1) 0 hscan (by omega)
  simp only [keySearch, Nat.sub_zero]
  rw [this, Nat.zero_add]

/-! ## The canonical scene model and `Importer::GetMemoryRequirements`

Byte sizes of the C structs are platform dependent; they are fixed here
to representative positive values.  No claim below depends on the exact
numbers, only on their positivity. -/

def sizeofAiScene : Nat := 80
def sizeofAiMesh : Nat := 120
def sizeofAiVector3D : Nat := 12
def sizeofAiColor4D : Nat := 16
def sizeofAiBone : Nat := 1036
def sizeofAiVertexWeight : Nat := 8
def sizeofAiFace : Nat := 8
def sizeofUInt : Nat := 4
def sizeofPtr : Nat := 4
def sizeofAiTexture : Nat := 16
def sizeofAiAnimation : Nat := 1048
def sizeofAiNodeAnim : Nat := 1060
def sizeofAiVectorKey : Nat := 20
def sizeofAiQuatKey : Nat := 24
def sizeofAiCamera : Nat := 1092
def sizeofAiLight : Nat := 1112
def sizeofAiNode : Nat := 1104
def sizeofAiMaterial : Nat := 16

/-- Value of `AI_MAX_NUMBER_OF_COLOR_SETS` (public header). -/
def AI_MAX_NUMBER_OF_COLOR_SETS : Nat := 4

/-- Value of `AI_MAX_NUMBER_OF_TEXTURECOORDS` (public header). -/
def AI_MAX_NUMBER_OF_TEXTURECOORDS : Nat := 4

/-- An `aiBone`: only its weight count matters to the memory walk. -/
structure AiBone where
  mNumWeights : Nat
  deriving Repr, DecidableEq

/-- An `aiMesh`, reduced to the data `GetMemoryRequirements` reads: the
`Has*` predicates (array-presence tests in C), the counts, and the bone
list.  `mColors.getD a false` models `HasVertexColors(a)`, and likewise
for texture-coordinate sets. -/
structure AiMesh where
  mNumVertices : Nat
  hasPositions : Bool
  hasNormals : Bool
  hasTangentsAndBitangents : Bool
  mColors : List Bool
  mTextureCoords : List Bool
  mBones : List AiBone
  mNumFaces : Nat
  deriving Repr, DecidableEq

/-- Predicate `HasBones()`, that is `mBones != NULL && mNumBones > 0`. -/
def AiMesh.hasBones (m : AiMesh) : Bool := m.mBones.length > 0

/-- An `aiTexture`: `mHeight == 0` marks a compressed blob whose byte
count is `mWidth`. -/
structure AiTexture where
  mWidth : Nat
  mHeight : Nat
  deriving Repr, DecidableEq

/-- An `aiNode`, reduced to what the memory walk reads: mesh-index count
and children. -/
inductive AiNode where
  | mk (mNumMeshes : Nat) (mChildren : List AiNode)

/-- An `aiMaterial`: allocation count and the `mDataLength` of each live
property. -/
structure AiMaterial where
  mNumAllocated : Nat
  mProperties : List Nat
  deriving Repr, DecidableEq

/-- The canonical scene (`aiScene`), reduced to the fields the claims
read.  Cameras and lights enter the memory walk only through their
counts. -/
structure AiScene where
  mRootNode : AiNode
  mMeshes : List AiMesh
  mMaterials : List AiMaterial
  mAnimations : List AiAnimation
  mTextures : List AiTexture
  mNumCameras : Nat
  mNumLights : Nat

/-- The per-mesh byte cost summed by the mesh loop of
`GetMemoryRequirements`.  The color-set and texture-coordinate loops
`break` at the first absent set, hence the `takeWhile`. -/
def meshBytes (m : AiMesh) : Nat :=
  sizeofAiMesh
  + (if m.hasPositions then sizeofAiVector3D * m.mNumVertices else 0)
  + (if m.hasNormals then sizeofAiVector3D * m.mNumVertices else 0)
  + (if m.hasTangentsAndBitangents then sizeofAiVector3D * m.mNumVertices * 2 else 0)
  + ((List.range AI_MAX_NUMBER_OF_COLOR_SETS).takeWhile
      (fun a => m.mColors.getD a false)).length * (sizeofAiColor4D * m.mNumVertices)
  + ((List.range AI_MAX_NUMBER_OF_TEXTURECOORDS).takeWhile
      (fun a => m.mTextureCoords.getD a false)).length * (sizeofAiVector3D * m.mNumVertices)
  + (if m.hasBones then
      sizeofPtr * m.mBones.length
      + (m.mBones.map (fun b => sizeofAiBone + b.mNumWeights * sizeofAiVertexWeight)).sum
     else 0)
  + (sizeofAiFace + 3 * sizeofUInt) * m.mNumFaces

/-- The per-texture byte cost of the texture loop. -/
def textureBytes (t : AiTexture) : Nat :=
  sizeofAiTexture + (if t.mHeight ≠ 0 then 4 * t.mHeight * t.mWidth else t.mWidth)

/-- The byte cost of one channel (`aiNodeAnim`) as the animation loop
computes it from `pc2`. -/
def channelBytes (c : AiNodeAnim) : Nat :=
  sizeofAiNodeAnim
  + c.mPositionKeys.length * sizeofAiVectorKey
  + c.mScalingKeys.length * sizeofAiVectorKey
  + c.mRotationKeys.length * sizeofAiQuatKey

/-- The channel used by the inner animation loop at outer index `i` in the
SOURCE: `const aiNodeAnim* pc2 = pc->mChannels[i];` — the OUTER animation
index `i`, not the inner loop variable `a`.  When `i` is out of range the
C code reads past the array; that is modelled by the `getD` default. -/
def codeInnerChannel (i : Nat) (pc : AiAnimation) : AiNodeAnim :=
  pc.mChannels.getD i ⟨[], [], []⟩

/-- The animation loop of `GetMemoryRequirements` as written: for the
animation at outer index `i`, the inner loop runs `mNumChannels` times
but adds the bytes of `mChannels[i]` each time. -/
def animationBytesCode (i : Nat) (pc : AiAnimation) : Nat :=
  sizeofAiAnimation
  + (List.range pc.mChannels.length).foldl
      (fun acc _a => acc + channelBytes (codeInnerChannel i pc)) 0

/-- Total of the animation loop over `mAnimations`. -/
def animationsBytes (anims : List AiAnimation) : Nat :=
  (anims.enum.map (fun p => animationBytesCode p.1 p.2)).sum

/-- One channel-array access of the animation loop: outer animation index,
inner loop position, the channel index the code reads, and the channel
count of that animation. -/
structure ChannelAccess where
  animIdx : Nat
  loopPos : Nat
  readIdx : Nat
  chanCount : Nat
  deriving Repr, DecidableEq

/-- The sequence of channel-array accesses the animation loop performs:
for each animation `i` and inner position `a < mNumChannels`, the code
reads `mChannels[i]`. -/
def animChannelAccesses (anims : List AiAnimation) : List ChannelAccess :=
  (anims.enum.map (fun p =>
    (List.range p.2.mChannels.length).map
      (fun a => ChannelAccess.mk p.1 a p.1 p.2.mChannels.length))).flatten

/-- The per-material byte cost of the material loop. -/
def materialBytes (m : AiMaterial) : Nat :=
  sizeofAiMaterial + m.mNumAllocated * sizeofPtr + m.mProperties.sum

mutual

/-- Function `AddNodeWeight`: recursive byte cost of one node. -/
def nodeWeight : AiNode → Nat
  | .mk nm ch => sizeofAiNode + sizeofUInt * nm + sizeofPtr * ch.length + nodesWeight ch

/-- Byte cost of a node list (the recursion of `AddNodeWeight` over the
children). -/
def nodesWeight : List AiNode → Nat
  | [] => 0
  | n :: rest => nodeWeight n + nodesWeight rest

end

/-- The `aiMemoryInfo` struct; `aiMemoryInfo()` zero-initializes. -/
structure AiMemoryInfo where
  textures : Nat := 0
  materials : Nat := 0
  meshes : Nat := 0
  nodes : Nat := 0
  animations : Nat := 0
  cameras : Nat := 0
  lights : Nat := 0
  total : Nat := 0
  deriving Repr, DecidableEq

/-- The walker `Importer::GetMemoryRequirements`, statement for statement: zero the
struct; return if no scene; seed `total` with `sizeof(aiScene)`; then per
category fill the field and add it to `total` in source order (meshes,
textures, animations, cameras, lights, nodes, materials). -/
def GetMemoryRequirements (scene : Option AiScene) : AiMemoryInfo :=
  match scene with
  | none => {}
  | some sc =>
    let i0 : AiMemoryInfo := { total := sizeofAiScene }
    let i1 := { i0 with meshes := (sc.mMeshes.map meshBytes).sum }
    let i2 := { i1 with total := i1.total + i1.meshes }
    let i3 := { i2 with textures := (sc.mTextures.map textureBytes).sum }
    let i4 := { i3 with total := i3.total + i3.textures }
    let i5 := { i4 with animations := animationsBytes sc.mAnimations }
    let i6 := { i5 with total := i5.total + i5.animations }
    let i7 := { i6 with cameras := sizeofAiCamera * sc.mNumCameras,
                        total := i6.total + sizeofAiCamera * sc.mNumCameras }
    let i8 := { i7 with lights := sizeofAiLight * sc.mNumLights,
                        total := i7.total + sizeofAiLight * sc.mNumLights }
    let i9 := { i8 with nodes := nodeWeight sc.mRootNode }
    let i10 := { i9 with total := i9.total + i9.nodes }
    let i11 := { i10 with materials := (sc.mMaterials.map materialBytes).sum }
    { i11 with total := i11.total + i11.materials }

/-- A minimal loaded scene: just the mandatory root node. -/
def minimalScene : AiScene :=
  { mRootNode := .mk 0 []
    mMeshes := []
    mMaterials := []
    mAnimations := []
    mTextures := []
    mNumCameras := 0
    mNumLights := 0 }

/-- A channel with one position key. -/
def chanOneKey : AiNodeAnim :=
  { mPositionKeys := [⟨0, (0, 0, 0)⟩], mRotationKeys := [], mScalingKeys := [] }

/-- A channel with no keys. -/
def chanNoKey : AiNodeAnim :=
  { mPositionKeys := [], mRotationKeys := [], mScalingKeys := [] }

/-- First animation of the C3 scenario: two channels of different byte
cost. -/
def exAnim0 : AiAnimation :=
  { mDuration := 0
    mTicksPerSecond := 0
    mChannels := [chanOneKey, chanNoKey] }

/-- Second animation of the C3 scenario: a single channel, so that the
outer index 1 is out of range for its channel array. -/
def exAnim1 : AiAnimation :=
  { mDuration := 0
    mTicksPerSecond := 0
    mChannels := [chanNoKey] }

/-- The two-animation list exhibiting the shadowed-index bug. -/
def exAnims : List AiAnimation := [exAnim0, exAnim1]

/-! ## The import dispatcher (`Importer`)

Post-process flag bits (`aiProcess_*`): values from the library's public
flag header.  The claims only rely on them being distinct single bits. -/

def aiProcess_GenNormals : Nat := 0x20
def aiProcess_GenSmoothNormals : Nat := 0x40
def aiProcess_ValidateDataStructure : Nat := 0x400

/-- The 32-bit unsigned value of `~aiProcess_ValidateDataStructure`, used
by `pFlags &= ~aiProcess_ValidateDataStructure`. -/
def notValidateDSMask : Nat := 0xFFFFFBFF

/-- A post-processing stage (`BaseProcess`): its activation test and its
scene transform.  The concrete stages are external plugins; `execute`
models `ExecuteOnScene`, which either rewrites the scene or fails by
nulling the scene and recording an error message. -/
structure BaseProcess where
  IsActive : Nat → Bool
  execute : AiScene → Except String AiScene

/-- Helper `_ValidateFlags`: rejects `aiProcess_GenSmoothNormals` together with
`aiProcess_GenNormals`. -/
def _ValidateFlags (pFlags : Nat) : Bool :=
  if pFlags &&& aiProcess_GenSmoothNormals ≠ 0 ∧ pFlags &&& aiProcess_GenNormals ≠ 0 then
    false
  else true

/-- Operation `Importer::ValidateFlags` over the stage list: basic mutual-exclusion
check, clear the validation bit, then for each mask `1 << k` of the loop
`for (mask = 1; mask < (1 << 31); mask <<= 1)` (so `k < 31`; the top bit
is never examined) demand a stage with `IsActive(mask)` when the bit is
set. -/
def ValidateFlags (steps : List BaseProcess) (pFlags : Nat) : Bool :=
  if _ValidateFlags pFlags = false then false
  else
    let flags := pFlags &&& notValidateDSMask
    (List.range 31).all (fun k =>
      if flags &&& 2 ^ k ≠ 0 then steps.any (fun p => p.IsActive (2 ^ k)) else true)

/-- The I/O abstraction, reduced to what `Importer::ReadFile` consumes
directly: `Exists(path)`. -/
structure IOSystem where
  fileExists : String → Bool

/-- An importer plugin (`BaseImporter`): `CanRead(path, checkSig)` (the
IO handle is ambient) and `ReadFile`, which returns a fresh scene or —
via a caught `ImportErrorException` — a failure with the text later read
by `GetErrorText()`. -/
structure BaseImporter where
  CanRead : String → Bool → Bool
  ReadFile : String → Except String AiScene

/-- Model of a C `float` value as uninterpreted bits: the property store only
stores and compares them. -/
structure CFloat where
  bits : Nat
  deriving Repr, DecidableEq

/-- Modelled from the spec: `SetGenericProperty` (`GenericProperty.h` is
not under `src/`) — "Write-through to the property store": the key is
bound to the new value, replacing any previous binding. -/
def SetGenericProperty {α : Type} (m : List (String × α)) (k : String) (v : α) :
    List (String × α) :=
  (k, v) :: m.filter (fun p => p.1 ≠ k)

/-- Modelled from the spec: `GetGenericProperty` — "Get returns
caller-supplied sentinel when absent". -/
def GetGenericProperty {α : Type} (m : List (String × α)) (k : String) (d : α) : α :=
  ((m.find? (fun p => p.1 = k)).map Prod.snd).getD d

/-- The dispatcher state the claims read: importer list, stage list, I/O
handle, current scene, last error string, and the three property maps.
`validateDS` models the out-of-band `ValidateDSProcess` and `preprocess`
the unconditionally-run `ScenePreprocessor`; both classes are external to
`src/` and are modelled from the spec ("pure predicate over the scene
that on first violation nulls the scene and records the reason"; "fixed
normalization applied once between decode and pipeline"). -/
structure Importer where
  mImporter : List BaseImporter
  mPostProcessingSteps : List BaseProcess
  mIOHandler : IOSystem
  mIsDefaultHandler : Bool
  mScene : Option AiScene
  mErrorString : String
  mIntProperties : List (String × Int)
  mFloatProperties : List (String × CFloat)
  mStringProperties : List (String × String)
  validateDS : AiScene → Except String AiScene
  preprocess : AiScene → AiScene

/-- Accessor `Importer::GetScene`. -/
def Importer.GetScene (s : Importer) : Option AiScene := s.mScene

/-- Accessor `Importer::GetErrorString`. -/
def Importer.GetErrorString (s : Importer) : String := s.mErrorString

/-- Operation `Importer::FreeScene`. -/
def Importer.FreeScene (s : Importer) : Importer := { s with mScene := none }

/-- Test `pFile.find_last_of('.') != string::npos`: the path contains a dot. -/
def pathHasDot (pFile : String) : Bool := pFile.data.contains '.'

/-- Importer selection in `Importer::ReadFile`: a first pass over the list
of importers with `checkSig = false` takes the first importer whose
`CanRead` accepts; only if that pass selects nothing and the path
contains a dot does a second pass run with `checkSig = true`. -/
def selectImporter (imps : List BaseImporter) (pFile : String) : Option BaseImporter :=
  match imps.find? (fun imp => imp.CanRead pFile false) with
  | some imp => some imp
  | none =>
    if pathHasDot pFile then imps.find? (fun imp => imp.CanRead pFile true)
    else none

/-- The post-processing loop of `Importer::ReadFile`: inactive stages are
skipped; an active stage transforms the scene; when a stage fails (nulls
the scene) the loop halts with the stage's error. -/
def runSteps (steps : List BaseProcess) (pFlags : Nat) (sc : AiScene) :
    Except String AiScene :=
  match steps with
  | [] => .ok sc
  | p :: rest =>
    if p.IsActive pFlags then
      match p.execute sc with
      | .ok sc' => runSteps rest pFlags sc'
      | .error e => .error e
    else runSteps rest pFlags sc

/-- The body of `Importer::ReadFile` after the initial "delete previous
scene" step: probe existence; select an importer (two passes); decode;
validate out of band when requested; preprocess; run the pipeline.
Failures store a message in `mErrorString`; NOTE the source never clears
`mErrorString` on entry. -/
def Importer.ReadFileAfterFree (s : Importer) (pFile : String) (pFlags : Nat) : Importer :=
  if s.mIOHandler.fileExists pFile = false then
    { s with mErrorString := "Unable to open file \"" ++ pFile ++ "\"." }
  else
    match selectImporter s.mImporter pFile with
    | none =>
      { s with mErrorString :=
          "No suitable reader found for the file format of file \"" ++ pFile ++ "\"." }
    | some imp =>
      match imp.ReadFile pFile with
      | .error e => { s with mErrorString := e }
      | .ok sc0 =>
        match (if pFlags &&& aiProcess_ValidateDataStructure ≠ 0 then s.validateDS sc0
               else .ok sc0) with
        | .error e => { s with mErrorString := e }
        | .ok sc1 =>
          match runSteps s.mPostProcessingSteps pFlags (s.preprocess sc1) with
          | .error e => { s with mErrorString := e }
          | .ok sc3 => { s with mScene := some sc3 }

/-- Operation `Importer::ReadFile`: `if (mScene) FreeScene();` then the body
above. -/
def Importer.ReadFile (s : Importer) (pFile : String) (pFlags : Nat) : Importer :=
  Importer.ReadFileAfterFree (if s.mScene.isSome then s.FreeScene else s) pFile pFlags

/-- Operations `Importer::SetPropertyInteger` / `GetPropertyInteger`. -/
def Importer.SetPropertyInteger (s : Importer) (k : String) (v : Int) : Importer :=
  { s with mIntProperties := SetGenericProperty s.mIntProperties k v }

def Importer.GetPropertyInteger (s : Importer) (k : String) (d : Int) : Int :=
  GetGenericProperty s.mIntProperties k d

/-- Operations `Importer::SetPropertyFloat` / `GetPropertyFloat`. -/
def Importer.SetPropertyFloat (s : Importer) (k : String) (v : CFloat) : Importer :=
  { s with mFloatProperties := SetGenericProperty s.mFloatProperties k v }

def Importer.GetPropertyFloat (s : Importer) (k : String) (d : CFloat) : CFloat :=
  GetGenericProperty s.mFloatProperties k d

/-- Operations `Importer::SetPropertyString` / `GetPropertyString`. -/
def Importer.SetPropertyString (s : Importer) (k : String) (v : String) : Importer :=
  { s with mStringProperties := SetGenericProperty s.mStringProperties k v }

def Importer.GetPropertyString (s : Importer) (k : String) (d : String) : String :=
  GetGenericProperty s.mStringProperties k d

/-! ## `Importer::SetIOHandler` — pointer-level ownership model

The behavioural dispatcher model above carries the handler as its
behaviour; the ownership claim needs pointer identity, so handlers are
modelled as numeric identities here.  `fresh` stands for the address the
`new DefaultIOSystem()` allocation returns; `freed` records every pointer
passed to `delete` so far. -/

structure IOHandlerState where
  mIOHandler : Nat
  mIsDefaultHandler : Bool
  freed : List Nat
  deriving Repr, DecidableEq

/-- Operation `Importer::SetIOHandler`, statement for statement: a null handle
installs a freshly allocated default handler and sets the default flag —
the `delete mIOHandler` above it is commented out, so nothing is freed;
a non-null handle different from the current one frees the current
handler and installs the new one with the flag cleared; a non-null handle
EQUAL to the current one takes neither branch, leaving the whole state
(including the flag) unchanged. -/
def SetIOHandler (s : IOHandlerState) (pIOHandler : Option Nat) (fresh : Nat) :
    IOHandlerState :=
  match pIOHandler with
  | none => { s with mIOHandler := fresh, mIsDefaultHandler := true }
  | some h =>
    if s.mIOHandler ≠ h then
      { mIOHandler := h, mIsDefaultHandler := false, freed := s.mIOHandler :: s.freed }
    else s

/-- Accessor `Importer::GetIOHandler` on the pointer-level state. -/
def GetIOHandlerPtr (s : IOHandlerState) : Nat := s.mIOHandler

/-- Accessor `Importer::IsDefaultIOHandler` on the pointer-level state. -/
def IsDefaultIOHandler (s : IOHandlerState) : Bool := s.mIsDefaultHandler

/-! ## Claim C9 -/

/-- C9: in `AnimEvaluator::Evaluate(pTime)`, when the animation's
ticks-per-second value is 0 the input time is converted to ticks at the
default rate of 25 ticks per second, otherwise at the animation's stored
rate. -/
theorem claim_C9_default_tick_rate (anim : AiAnimation) (pTime : ℚ) :
    evalTickTime anim pTime
      = pTime * (if anim.mTicksPerSecond = 0 then 25 else anim.mTicksPerSecond) := by
  unfold evalTickTime evalTicksPerSecond
  by_cases h : anim.mTicksPerSecond = 0 <;> simp [h]

/-! ## Claim C10 -/

/-- C10: the frame an `Evaluate` call selects for a track depends only on
the evaluation time and the key times, not on the call history: whether
the search resumes from the cached frame (the mapped time is at or after
`mLastTime`) or restarts at 0 (it is not), the selected key index equals
that of a reference search always starting from frame 0, provided the
cache holds the search result of the earlier time. -/
theorem claim_C10_cached_search_eq_full (times : List ℚ) (lastTime time : ℚ)
    (cached : Nat) (hcache : cached = keySearch times lastTime 0) :
    evalTrackFrame times time lastTime cached = keySearch times time 0 := by
  unfold evalTrackFrame searchStart
  by_cases h : lastTime ≤ time
  · rw [if_pos h]
    exact keySearch_cached_eq times lastTime time cached hcache h
  · rw [if_neg h]

/-- C10 witness: key times `[0, 10, 20, 30]`, previous mapped time `15`
(cache = frame 1), current time `25`: the resumed search and the full
search both select frame 2. -/
theorem claim_C10_cached_search_eq_full_witness :
    evalTrackFrame [0, 10, 20, 30] 25 15 1 = keySearch [0, 10, 20, 30] 25 0 :=
  claim_C10_cached_search_eq_full [0, 10, 20, 30] 15 25 1 (by decide)

/-! ## Claim C2 -/

/-- C2 counterexample: for the minimal loaded scene, `total` is NOT the
sum of the per-category fields — the walker seeds `total` with
`sizeof(aiScene)` before adding the categories. -/
theorem claim_C2_counterexample :
    ¬ ((GetMemoryRequirements (some minimalScene)).total
        = (GetMemoryRequirements (some minimalScene)).meshes
          + (GetMemoryRequirements (some minimalScene)).materials
          + (GetMemoryRequirements (some minimalScene)).animations
          + (GetMemoryRequirements (some minimalScene)).textures
          + (GetMemoryRequirements (some minimalScene)).cameras
          + (GetMemoryRequirements (some minimalScene)).lights
          + (GetMemoryRequirements (some minimalScene)).nodes) := by
  decide

/-- C2 amended: for every loaded scene, `total` equals `sizeof(aiScene)`
plus the sum of the per-category fields (the function is a pure read of
the scene — `GetMemoryRequirements` is a function of the scene value
alone). -/
theorem claim_C2_total_eq_sizeof_scene_plus_fields (sc : AiScene) :
    (GetMemoryRequirements (some sc)).total
      = sizeofAiScene
        + (GetMemoryRequirements (some sc)).meshes
        + (GetMemoryRequirements (some sc)).textures
        + (GetMemoryRequirements (some sc)).animations
        + (GetMemoryRequirements (some sc)).cameras
        + (GetMemoryRequirements (some sc)).lights
        + (GetMemoryRequirements (some sc)).nodes
        + (GetMemoryRequirements (some sc)).materials := by
  rfl

/-! ## Claim C3 -/

/-- C3: the animation walk does NOT iterate channels by their own index.
On the two-animation scene `exAnims` the code (i) performs the access
trace `[(0,0,→0,of 2), (0,1,→0,of 2), (1,0,→1,of 1)]` — every read uses
the OUTER animation index, so inner position 1 of animation 0 reads
channel 0, and animation 1 reads channel index 1 although its channel
count is 1 (out of bounds); and (ii) for animation 0 the bytes added are
not those of its channels 0 and 1. -/
theorem claim_C3_channel_index_out_of_bounds :
    animChannelAccesses exAnims
      = [⟨0, 0, 0, 2⟩, ⟨0, 1, 0, 2⟩, ⟨1, 0, 1, 1⟩]
    ∧ ((animChannelAccesses exAnims).any fun acc =>
        decide (acc.chanCount ≤ acc.readIdx)) = true
    ∧ animationBytesCode 0 exAnim0
        ≠ sizeofAiAnimation + channelBytes chanOneKey + channelBytes chanNoKey := by
  refine ⟨by decide, by decide, by decide⟩

/-! ## Claim C5 -/

theorem and_two_pow_ne (B k : Nat) : B &&& 2 ^ k ≠ 0 ↔ B.testBit k = true := by
  have h2 : (2 : Nat) ^ k ≠ 0 := by positivity
  rw [Nat.and_two_pow]
  rcases Bool.eq_false_or_eq_true (B.testBit k) with h | h <;> simp [h, h2]

theorem testBit_notValidateDSMask (k : Nat) (hk : k < 31) :
    Nat.testBit notValidateDSMask k = decide (k ≠ 10) := by
  interval_cases k <;> decide

theorem flags_bit_ne (B k : Nat) (hk : k < 31) :
    ((B &&& notValidateDSMask) &&& 2 ^ k ≠ 0) ↔ (B.testBit k = true ∧ k ≠ 10) := by
  rw [and_two_pow_ne, Nat.testBit_land, testBit_notValidateDSMask k hk]
  simp

theorem _ValidateFlags_eq_false (B : Nat) :
    _ValidateFlags B = false ↔ (B.testBit 6 = true ∧ B.testBit 5 = true) := by
  unfold _ValidateFlags
  by_cases hex : B &&& aiProcess_GenSmoothNormals ≠ 0 ∧ B &&& aiProcess_GenNormals ≠ 0
  · rw [if_pos hex]
    exact ⟨fun _ => ⟨(and_two_pow_ne B 6).mp hex.1, (and_two_pow_ne B 5).mp hex.2⟩,
           fun _ => rfl⟩
  · rw [if_neg hex]
    constructor
    · intro h; exact Bool.noConfusion h
    · rintro ⟨h6, h5⟩
      exact absurd ⟨(and_two_pow_ne B 6).mpr h6, (and_two_pow_ne B 5).mpr h5⟩ hex

/-- A stage that services no flag bit at all. -/
def inertStage : BaseProcess := { IsActive := fun _ => false, execute := .ok }

/-- C5 counterexample: with a pipeline whose only stage services no bit,
`ValidateFlags (2^31)` returns `true` although bit 31 is set, is not the
validation bit and is serviced by no stage — the mask loop stops at
`1 << 30`, so the claimed iff fails for the top bit. -/
theorem claim_C5_counterexample :
    ValidateFlags [inertStage] (2 ^ 31) = true
    ∧ Nat.testBit (2 ^ 31) 31 = true
    ∧ 2 ^ 31 ≠ aiProcess_ValidateDataStructure
    ∧ ∀ p ∈ [inertStage], p.IsActive (2 ^ 31) = false := by
  refine ⟨by decide, by decide, by decide, ?_⟩
  intro p hp
  rw [List.mem_singleton] at hp
  subst hp
  rfl

/-- C5 amended: `ValidateFlags(B)` is true iff `B` does not contain both
`aiProcess_GenNormals` (bit 5) and `aiProcess_GenSmoothNormals` (bit 6),
and every other bit of `B` BELOW BIT 31 — except the
`aiProcess_ValidateDataStructure` bit (bit 10), always accepted — is
serviced by a stage whose `IsActive` holds; bit 31 is never checked by
the source's mask loop. -/
theorem claim_C5_validate_flags_iff (steps : List BaseProcess) (B : Nat) :
    ValidateFlags steps B = true
      ↔ ¬ (B.testBit 6 = true ∧ B.testBit 5 = true)
        ∧ ∀ k, k < 31 → B.testBit k = true → k ≠ 10 →
            ∃ p ∈ steps, p.IsActive (2 ^ k) = true := by
  unfold ValidateFlags
  by_cases hmut : _ValidateFlags B = false
  · rw [if_pos hmut]
    have hbits := (_ValidateFlags_eq_false B).mp hmut
    constructor
    · intro h; exact Bool.noConfusion h
    · rintro ⟨h1, -⟩; exact absurd hbits h1
  · rw [if_neg hmut]
    simp only [List.all_eq_true, List.mem_range]
    constructor
    · intro h
      refine ⟨fun hc => hmut ((_ValidateFlags_eq_false B).mpr hc), ?_⟩
      intro k hk htb hne
      have h2 := h k hk
      rw [if_pos ((flags_bit_ne B k hk).mpr ⟨htb, hne⟩)] at h2
      exact List.any_eq_true.mp h2
    · rintro ⟨-, h⟩ k hk
      by_cases hbit : (B &&& notValidateDSMask) &&& 2 ^ k ≠ 0
      · rw [if_pos hbit]
        obtain ⟨htb, hne⟩ := (flags_bit_ne B k hk).mp hbit
        exact List.any_eq_true.mpr (h k hk htb hne)
      · rw [if_neg hbit]

/-! ## Claim C7 -/

/-- C7 counterexample: a dispatcher holding the default handler (pointer
0, flag true); `SetIOHandler(H)` with the non-null currently-installed
handler `H = 0` takes neither branch of the source, so
`IsDefaultIOHandler()` still returns true — the claim demands false —
and nothing is released. -/
theorem claim_C7_counterexample :
    ¬ (IsDefaultIOHandler (SetIOHandler ⟨0, true, []⟩ (some 0) 1) = false) := by
  decide

/-- C7 amended: `SetIOHandler(null)` installs a freshly allocated default
handler and reports default=true, releasing nothing (the `delete` is
commented out); `SetIOHandler(H)` for non-null `H` DIFFERENT from the
current handler installs `H`, reports default=false and releases the
previous handler; `SetIOHandler(H)` with `H` equal to the current handler
is a no-op, leaving handler and flag unchanged. -/
theorem claim_C7_set_io_handler (s : IOHandlerState) (h fresh : Nat) :
    (GetIOHandlerPtr (SetIOHandler s none fresh) = fresh
      ∧ IsDefaultIOHandler (SetIOHandler s none fresh) = true
      ∧ (SetIOHandler s none fresh).freed = s.freed)
    ∧ (h ≠ s.mIOHandler →
        GetIOHandlerPtr (SetIOHandler s (some h) fresh) = h
        ∧ IsDefaultIOHandler (SetIOHandler s (some h) fresh) = false
        ∧ s.mIOHandler ∈ (SetIOHandler s (some h) fresh).freed)
    ∧ (h = s.mIOHandler → SetIOHandler s (some h) fresh = s) := by
  refine ⟨⟨rfl, rfl, rfl⟩, ?_, ?_⟩
  · intro hne
    have hred : SetIOHandler s (some h) fresh
        = ⟨h, false, s.mIOHandler :: s.freed⟩ := by
      simp only [SetIOHandler]
      rw [if_pos (fun he => hne he.symm)]
    rw [hred]
    exact ⟨rfl, rfl, List.mem_cons_self _ _⟩
  · intro heq
    simp only [SetIOHandler]
    rw [if_neg (fun hd => hd heq.symm)]

/-- C7 witness: handler 0 installed as default; `SetIOHandler(2)` yields
handler 2, default=false, and releases handler 0. -/
theorem claim_C7_set_io_handler_witness :
    GetIOHandlerPtr (SetIOHandler ⟨0, true, []⟩ (some 2) 1) = 2
    ∧ IsDefaultIOHandler (SetIOHandler ⟨0, true, []⟩ (some 2) 1) = false
    ∧ 0 ∈ (SetIOHandler ⟨0, true, []⟩ (some 2) 1).freed :=
  (claim_C7_set_io_handler ⟨0, true, []⟩ 2 1).2.1 (by decide)

/-! ## Claim C8 -/

/-- C8 (`GenericProperty.h` is not under `src/`; the store is modelled
from the spec): set-then-get returns the stored value, and get on a key
never set in that store returns the caller-supplied default — for the
integer, float and string stores alike, each over its own map. -/
theorem claim_C8_property_roundtrip (s : Importer) (k : String)
    (vi di : Int) (vf df : CFloat) (vs ds : String) :
    ((s.SetPropertyInteger k vi).GetPropertyInteger k di = vi)
    ∧ ((∀ p ∈ s.mIntProperties, p.1 ≠ k) → s.GetPropertyInteger k di = di)
    ∧ ((s.SetPropertyFloat k vf).GetPropertyFloat k df = vf)
    ∧ ((∀ p ∈ s.mFloatProperties, p.1 ≠ k) → s.GetPropertyFloat k df = df)
    ∧ ((s.SetPropertyString k vs).GetPropertyString k ds = vs)
    ∧ ((∀ p ∈ s.mStringProperties, p.1 ≠ k) → s.GetPropertyString k ds = ds) := by
  refine ⟨?_, ?_, ?_, ?_, ?_, ?_⟩
  · simp only [Importer.SetPropertyInteger, Importer.GetPropertyInteger,
      SetGenericProperty, GetGenericProperty]
    rw [List.find?_cons_of_pos _ (by simp)]
    rfl
  · intro habs
    simp only [Importer.GetPropertyInteger, GetGenericProperty]
    rw [List.find?_eq_none.mpr (by intro p hp; simpa using habs p hp)]
    rfl
  · simp only [Importer.SetPropertyFloat, Importer.GetPropertyFloat,
      SetGenericProperty, GetGenericProperty]
    rw [List.find?_cons_of_pos _ (by simp)]
    rfl
  · intro habs
    simp only [Importer.GetPropertyFloat, GetGenericProperty]
    rw [List.find?_eq_none.mpr (by intro p hp; simpa using habs p hp)]
    rfl
  · simp only [Importer.SetPropertyString, Importer.GetPropertyString,
      SetGenericProperty, GetGenericProperty]
    rw [List.find?_cons_of_pos _ (by simp)]
    rfl
  · intro habs
    simp only [Importer.GetPropertyString, GetGenericProperty]
    rw [List.find?_eq_none.mpr (by intro p hp; simpa using habs p hp)]
    rfl

/-- An idle dispatcher with no importers, no stages, an all-miss I/O
handle, empty stores and no error. -/
def idleImporter : Importer :=
  { mImporter := []
    mPostProcessingSteps := []
    mIOHandler := ⟨fun _ => false⟩
    mIsDefaultHandler := true
    mScene := none
    mErrorString := ""
    mIntProperties := []
    mFloatProperties := []
    mStringProperties := []
    validateDS := .ok
    preprocess := id }

/-- C8 witness: on the empty store, getting key `"k"` yields the default
`-1`, and after `SetPropertyInteger("k", 7)` it yields `7`. -/
theorem claim_C8_property_roundtrip_witness :
    ((idleImporter.SetPropertyInteger "k" 7).GetPropertyInteger "k" (-1) = 7)
    ∧ (idleImporter.GetPropertyInteger "k" (-1) = -1) :=
  ⟨(claim_C8_property_roundtrip idleImporter "k" 7 (-1) ⟨0⟩ ⟨0⟩ "" "").1,
   (claim_C8_property_roundtrip idleImporter "k" 7 (-1) ⟨0⟩ ⟨0⟩ "" "").2.1
     (by intro p hp; cases hp)⟩

/-! ## Shared lemmas about `ReadFile` -/

theorem find?_of_first {α : Type} (p : α → Bool) :
    ∀ (l : List α) (idx : Nat) (h : idx < l.length),
      p (l.get ⟨idx, h⟩) = true →
      (∀ j (hj : j < l.length), j < idx → p (l.get ⟨j, hj⟩) = false) →
      l.find? p = some (l.get ⟨idx, h⟩) := by
  intro l
  induction l with
  | nil => intro idx h; simp at h
  | cons x xs ih =>
    intro idx h hp hprev
    cases idx with
    | zero => exact List.find?_cons_of_pos _ hp
    | succ n =>
      have hx : p x = false := hprev 0 (by simp) (Nat.succ_pos n)
      rw [List.find?_cons_of_neg _ (by simp [hx])]
      exact ih n (by simpa using h) hp
        (fun j hj hlt => hprev (j + 1) (by simpa using hj) (by omega))

theorem selectImporter_mem (imps : List BaseImporter) (pFile : String)
    (imp : BaseImporter) (h : selectImporter imps pFile = some imp) : imp ∈ imps := by
  unfold selectImporter at h
  cases hf : imps.find? (fun i => i.CanRead pFile false) with
  | some i =>
    rw [hf] at h
    cases h
    exact List.mem_of_find?_eq_some hf
  | none =>
    rw [hf] at h
    by_cases hd : pathHasDot pFile = true
    · rw [if_pos hd] at h
      exact List.mem_of_find?_eq_some h
    · rw [if_neg hd] at h
      exact Option.noConfusion h

theorem runSteps_error_mem (steps : List BaseProcess) (pFlags : Nat) :
    ∀ sc e, runSteps steps pFlags sc = .error e →
      ∃ p ∈ steps, ∃ sc2, p.execute sc2 = .error e := by
  induction steps with
  | nil => intro sc e h; exact Except.noConfusion h
  | cons p rest ih =>
    intro sc e h
    simp only [runSteps] at h
    by_cases hact : p.IsActive pFlags = true
    · rw [if_pos hact] at h
      cases hexe : p.execute sc with
      | ok sc2 =>
        rw [hexe] at h
        obtain ⟨q, hq, sc3, he⟩ := ih sc2 e h
        exact ⟨q, List.mem_cons_of_mem _ hq, sc3, he⟩
      | error e2 =>
        rw [hexe] at h
        cases h
        exact ⟨p, List.mem_cons_self _ _, sc, hexe⟩
    · rw [if_neg hact] at h
      obtain ⟨q, hq, sc3, he⟩ := ih sc e h
      exact ⟨q, List.mem_cons_of_mem _ hq, sc3, he⟩

theorem ReadFileAfterFree_missing (t : Importer) (pFile : String) (pFlags : Nat)
    (h : t.mIOHandler.fileExists pFile = false) :
    t.ReadFileAfterFree pFile pFlags
      = { t with mErrorString := "Unable to open file \"" ++ pFile ++ "\"." } := by
  unfold Importer.ReadFileAfterFree
  rw [if_pos h]

theorem ReadFileAfterFree_noReader (t : Importer) (pFile : String) (pFlags : Nat)
    (hex : t.mIOHandler.fileExists pFile = true)
    (hsel : selectImporter t.mImporter pFile = none) :
    t.ReadFileAfterFree pFile pFlags
      = { t with mErrorString :=
            "No suitable reader found for the file format of file \"" ++ pFile ++ "\"." } := by
  unfold Importer.ReadFileAfterFree
  rw [if_neg (by rw [hex]; exact Bool.noConfusion), hsel]

theorem append_ne_empty_left (a b : String) (ha : a ≠ "") : a ++ b ≠ "" := by
  intro h
  apply ha
  have hd := congrArg String.data h
  rw [String.data_append] at hd
  exact String.ext (List.append_eq_nil.mp hd).1

/-! ## Claim C6 -/

/-- C6: for every path (the empty string included) whose existence probe
fails, `ReadFile` stores no scene and sets the error string to
`Unable to open file "<path>".` — which contains `Unable to open file`
followed by the path. -/
theorem claim_C6_missing_file (s : Importer) (pFile : String) (pFlags : Nat)
    (h : s.mIOHandler.fileExists pFile = false) :
    (s.ReadFile pFile pFlags).GetScene = none
    ∧ (s.ReadFile pFile pFlags).GetErrorString
        = "Unable to open file \"" ++ pFile ++ "\"."
    ∧ ∃ mid post, (s.ReadFile pFile pFlags).GetErrorString
        = "Unable to open file" ++ (mid ++ (pFile ++ post)) := by
  by_cases hsc : s.mScene.isSome = true
  · simp only [Importer.ReadFile, if_pos hsc]
    rw [ReadFileAfterFree_missing s.FreeScene pFile pFlags h]
    exact ⟨rfl, rfl, " \"", "\".", rfl⟩
  · simp only [Importer.ReadFile, if_neg hsc]
    rw [ReadFileAfterFree_missing _ _ _ h]
    refine ⟨?_, rfl, " \"", "\".", rfl⟩
    simpa [Importer.GetScene] using Option.not_isSome_iff_eq_none.mp hsc

/-- C6 witness: the idle dispatcher's handle misses every path; importing
the empty path stores no scene and reports `Unable to open file "".`. -/
theorem claim_C6_missing_file_witness :
    idleImporter.mIOHandler.fileExists "" = false
    ∧ (idleImporter.ReadFile "" 0).GetScene = none
    ∧ (idleImporter.ReadFile "" 0).GetErrorString = "Unable to open file \"\"." :=
  ⟨rfl, (claim_C6_missing_file idleImporter "" 0 rfl).1,
    (claim_C6_missing_file idleImporter "" 0 rfl).2.1⟩

/-! ## Claim C4 -/

/-- C4: importer selection takes, in list order, the first importer whose
`CanRead(path, IO, checkSig=false)` accepts; only when that pass selects
nothing AND the path contains a dot does a second pass with
`checkSig=true` run, again first hit wins; when the first pass selects
nothing and the path has no dot, no importer is selected; and whenever
no importer was selected, `ReadFile` stores no scene and sets an error
string containing `No suitable reader`. -/
theorem claim_C4_importer_selection (s : Importer) (pFile : String) (pFlags : Nat)
    (hex : s.mIOHandler.fileExists pFile = true) :
    (∀ idx (h : idx < s.mImporter.length),
        (s.mImporter.get ⟨idx, h⟩).CanRead pFile false = true →
        (∀ j (hj : j < s.mImporter.length), j < idx →
          (s.mImporter.get ⟨j, hj⟩).CanRead pFile false = false) →
        selectImporter s.mImporter pFile = some (s.mImporter.get ⟨idx, h⟩))
    ∧ ((∀ imp ∈ s.mImporter, imp.CanRead pFile false = false) →
        pathHasDot pFile = true →
        ∀ idx (h : idx < s.mImporter.length),
          (s.mImporter.get ⟨idx, h⟩).CanRead pFile true = true →
          (∀ j (hj : j < s.mImporter.length), j < idx →
            (s.mImporter.get ⟨j, hj⟩).CanRead pFile true = false) →
          selectImporter s.mImporter pFile = some (s.mImporter.get ⟨idx, h⟩))
    ∧ ((∀ imp ∈ s.mImporter, imp.CanRead pFile false = false) →
        pathHasDot pFile = false →
        selectImporter s.mImporter pFile = none)
    ∧ (selectImporter s.mImporter pFile = none →
        (s.ReadFile pFile pFlags).GetScene = none
        ∧ (s.ReadFile pFile pFlags).GetErrorString
            = "No suitable reader found for the file format of file \"" ++ pFile ++ "\"."
        ∧ ∃ t, (s.ReadFile pFile pFlags).GetErrorString = "No suitable reader" ++ t) := by
  refine ⟨?_, ?_, ?_, ?_⟩
  · intro idx h hp hprev
    unfold selectImporter
    rw [find?_of_first _ s.mImporter idx h hp hprev]
  · intro hall hdot idx h hp hprev
    unfold selectImporter
    rw [List.find?_eq_none.mpr (fun x hx => by simp [hall x hx]), if_pos hdot]
    exact find?_of_first _ s.mImporter idx h hp hprev
  · intro hall hdot
    unfold selectImporter
    rw [List.find?_eq_none.mpr (fun x hx => by simp [hall x hx]),
      if_neg (by rw [hdot]; exact Bool.noConfusion)]
  · intro hsel
    by_cases hsc : s.mScene.isSome = true
    · simp only [Importer.ReadFile, if_pos hsc]
      rw [ReadFileAfterFree_noReader s.FreeScene pFile pFlags hex hsel]
      exact ⟨rfl, rfl, " found for the file format of file \"" ++ (pFile ++ "\"."), rfl⟩
    · simp only [Importer.ReadFile, if_neg hsc]
      rw [ReadFileAfterFree_noReader _ _ _ hex hsel]
      refine ⟨?_, rfl, " found for the file format of file \"" ++ (pFile ++ "\"."), rfl⟩
      simpa [Importer.GetScene] using Option.not_isSome_iff_eq_none.mp hsc

/-- A dispatcher whose handle finds every path but which has no importer
registered. -/
def noLoaderImporter : Importer := { idleImporter with mIOHandler := ⟨fun _ => true⟩ }

/-- C4 witness: the file exists but no importer is registered, so neither
pass selects one; `ReadFile` stores no scene and reports
`No suitable reader …`. -/
theorem claim_C4_importer_selection_witness :
    noLoaderImporter.mIOHandler.fileExists "a.xyz" = true
    ∧ (noLoaderImporter.ReadFile "a.xyz" 0).GetScene = none
    ∧ ∃ t, (noLoaderImporter.ReadFile "a.xyz" 0).GetErrorString
        = "No suitable reader" ++ t :=
  ⟨rfl, ((claim_C4_importer_selection noLoaderImporter "a.xyz" 0 rfl).2.2.2 rfl).1,
    ((claim_C4_importer_selection noLoaderImporter "a.xyz" 0 rfl).2.2.2 rfl).2.2⟩

/-! ## Claim C1 -/

/-- An importer that accepts every file and decodes it to the minimal
scene. -/
def okImporter : BaseImporter :=
  { CanRead := fun _ _ => true, ReadFile := fun _ => .ok minimalScene }

/-- A dispatcher whose handle finds every path except the empty one, with
`okImporter` registered. -/
def flakyImporter : Importer :=
  { idleImporter with
    mImporter := [okImporter]
    mIOHandler := ⟨fun p => p != ""⟩ }

/-- C1 counterexample: on one dispatcher, `ReadFile("")` fails (missing
file, error recorded) and the next `ReadFile("good.x")` succeeds — but
the source never clears `mErrorString`, so after the second call the
scene is non-null while the error string still holds the old message:
the claimed iff is violated. -/
theorem claim_C1_counterexample :
    ¬ ((((flakyImporter.ReadFile "" 0).ReadFile "good.x" 0).GetScene.isSome = true)
        ↔ (((flakyImporter.ReadFile "" 0).ReadFile "good.x" 0).GetErrorString = "")) := by
  decide

/-- C1 amended: the iff holds after a `ReadFile` call whenever the error
string was empty BEFORE the call (in particular on a fresh instance and
along every all-successful history), given that importers, the validator
and the stages report non-empty failure messages; a successful call does
not clear an error string left by an earlier failed call, so the iff is
not an invariant of arbitrary call sequences. -/
theorem ReadFileAfterFree_decodeError (t : Importer) (pFile : String) (pFlags : Nat)
    (imp : BaseImporter) (e : String)
    (hex2 : t.mIOHandler.fileExists pFile = true)
    (hsel : selectImporter t.mImporter pFile = some imp)
    (hdec : imp.ReadFile pFile = .error e) :
    t.ReadFileAfterFree pFile pFlags = { t with mErrorString := e } := by
  unfold Importer.ReadFileAfterFree
  simp [hex2, hsel, hdec]

theorem ReadFileAfterFree_validateError (t : Importer) (pFile : String) (pFlags : Nat)
    (imp : BaseImporter) (sc0 : AiScene) (e : String)
    (hex2 : t.mIOHandler.fileExists pFile = true)
    (hsel : selectImporter t.mImporter pFile = some imp)
    (hdec : imp.ReadFile pFile = .ok sc0)
    (hvr : (if pFlags &&& aiProcess_ValidateDataStructure ≠ 0 then t.validateDS sc0
            else Except.ok sc0) = Except.error e) :
    t.ReadFileAfterFree pFile pFlags = { t with mErrorString := e } := by
  unfold Importer.ReadFileAfterFree
  simp [hex2, hsel, hdec, hvr]

theorem ReadFileAfterFree_stepsError (t : Importer) (pFile : String) (pFlags : Nat)
    (imp : BaseImporter) (sc0 sc1 : AiScene) (e : String)
    (hex2 : t.mIOHandler.fileExists pFile = true)
    (hsel : selectImporter t.mImporter pFile = some imp)
    (hdec : imp.ReadFile pFile = .ok sc0)
    (hvr : (if pFlags &&& aiProcess_ValidateDataStructure ≠ 0 then t.validateDS sc0
            else Except.ok sc0) = Except.ok sc1)
    (hrun : runSteps t.mPostProcessingSteps pFlags (t.preprocess sc1) = .error e) :
    t.ReadFileAfterFree pFile pFlags = { t with mErrorString := e } := by
  unfold Importer.ReadFileAfterFree
  simp [hex2, hsel, hdec, hvr, hrun]

theorem ReadFileAfterFree_ok (t : Importer) (pFile : String) (pFlags : Nat)
    (imp : BaseImporter) (sc0 sc1 sc3 : AiScene)
    (hex2 : t.mIOHandler.fileExists pFile = true)
    (hsel : selectImporter t.mImporter pFile = some imp)
    (hdec : imp.ReadFile pFile = .ok sc0)
    (hvr : (if pFlags &&& aiProcess_ValidateDataStructure ≠ 0 then t.validateDS sc0
            else Except.ok sc0) = Except.ok sc1)
    (hrun : runSteps t.mPostProcessingSteps pFlags (t.preprocess sc1) = .ok sc3) :
    t.ReadFileAfterFree pFile pFlags = { t with mScene := some sc3 } := by
  unfold Importer.ReadFileAfterFree
  simp [hex2, hsel, hdec, hvr, hrun]

theorem claim_C1_scene_iff_error_empty (s : Importer) (pFile : String) (pFlags : Nat)
    (himp : ∀ imp ∈ s.mImporter, ∀ p e, imp.ReadFile p = .error e → e ≠ "")
    (hval : ∀ sc e, s.validateDS sc = .error e → e ≠ "")
    (hstep : ∀ st ∈ s.mPostProcessingSteps, ∀ sc e, st.execute sc = .error e → e ≠ "")
    (herr : s.GetErrorString = "") :
    ((s.ReadFile pFile pFlags).GetScene.isSome = true
      ↔ (s.ReadFile pFile pFlags).GetErrorString = "") := by
  have core : ∀ t : Importer, t.mScene = none → t.mErrorString = "" →
      t.mImporter = s.mImporter → t.validateDS = s.validateDS →
      t.mPostProcessingSteps = s.mPostProcessingSteps →
      ((t.ReadFileAfterFree pFile pFlags).mScene.isSome = true
        ↔ (t.ReadFileAfterFree pFile pFlags).mErrorString = "") := by
    intro t hts hte htimp htval htsteps
    by_cases hexi : t.mIOHandler.fileExists pFile = false
    · rw [ReadFileAfterFree_missing t pFile pFlags hexi]
      have hne : ("Unable to open file \"" ++ pFile ++ "\".") ≠ "" :=
        append_ne_empty_left _ _ (append_ne_empty_left _ _ (by decide))
      simp [hts, hne]
    · have hex2 : t.mIOHandler.fileExists pFile = true := by
        cases hb : t.mIOHandler.fileExists pFile
        · exact absurd hb hexi
        · rfl
      cases hsel : selectImporter t.mImporter pFile with
      | none =>
        rw [ReadFileAfterFree_noReader t pFile pFlags hex2 hsel]
        have hne : ("No suitable reader found for the file format of file \""
            ++ pFile ++ "\".") ≠ "" :=
          append_ne_empty_left _ _ (append_ne_empty_left _ _ (by decide))
        simp [hts, hne]
      | some imp =>
        have himpmem : imp ∈ s.mImporter :=
          htimp ▸ selectImporter_mem t.mImporter pFile imp hsel
        cases hdec : imp.ReadFile pFile with
        | error e =>
          rw [ReadFileAfterFree_decodeError t pFile pFlags imp e hex2 hsel hdec]
          simp [hts, himp imp himpmem pFile e hdec]
        | ok sc0 =>
          cases hvr : (if pFlags &&& aiProcess_ValidateDataStructure ≠ 0
              then t.validateDS sc0 else Except.ok sc0) with
          | error e =>
            have he : e ≠ "" := by
              by_cases hflag : pFlags &&& aiProcess_ValidateDataStructure ≠ 0
              · rw [if_pos hflag] at hvr
                exact hval sc0 e (htval ▸ hvr)
              · rw [if_neg hflag] at hvr
                exact Except.noConfusion hvr
            rw [ReadFileAfterFree_validateError t pFile pFlags imp sc0 e hex2 hsel hdec hvr]
            simp [hts, he]
          | ok sc1 =>
            cases hrun : runSteps t.mPostProcessingSteps pFlags (t.preprocess sc1) with
            | error e =>
              obtain ⟨st, hst, sc2, hse⟩ := runSteps_error_mem _ _ _ _ hrun
              have he : e ≠ "" := hstep st (htsteps ▸ hst) sc2 e hse
              rw [ReadFileAfterFree_stepsError t pFile pFlags imp sc0 sc1 e
                hex2 hsel hdec hvr hrun]
              simp [hts, he]
            | ok sc3 =>
              rw [ReadFileAfterFree_ok t pFile pFlags imp sc0 sc1 sc3
                hex2 hsel hdec hvr hrun]
              simp [hte]
  by_cases hsc : s.mScene.isSome = true
  · simp only [Importer.ReadFile, if_pos hsc, Importer.GetScene, Importer.GetErrorString]
    exact core s.FreeScene rfl herr rfl rfl rfl
  · simp only [Importer.ReadFile, if_neg hsc, Importer.GetScene, Importer.GetErrorString]
    exact core s (Option.not_isSome_iff_eq_none.mp hsc) herr rfl rfl rfl

/-- C1 witness: on a fresh dispatcher (empty error string), a successful
ReadFile leaves a non-null scene and an empty error string, satisfying
the iff. -/
theorem claim_C1_scene_iff_error_empty_witness :
    ((flakyImporter.ReadFile "good.x" 0).GetScene.isSome = true
      ↔ (flakyImporter.ReadFile "good.x" 0).GetErrorString = "") :=
  claim_C1_scene_iff_error_empty flakyImporter "good.x" 0
    (by
      intro imp h p e hc
      have h2 : imp = okImporter := by simpa [flakyImporter] using h
      subst h2
      exact Except.noConfusion hc)
    (fun sc e hc => Except.noConfusion hc)
    (fun st hst => absurd hst (List.not_mem_nil st))
    rfl

end AssimpProof
